import Mathlib

/-!
Verification development for the capi2argo cluster operator's core
(`controllers/argo_cluster.go`): take-along metadata selection, name
building, and secret synthesis.

Embedding conventions:
* Go `map[string]string` values are modelled as association lists
  `List (String × String)`; the list order stands for one concrete
  iteration order of the Go map (Go map iteration order is unspecified,
  so theorems quantify over all orders).  `lookupAL` models map lookup,
  `insertAL` models `m[k] = v` (overwrite, position preserved).
* `strings.HasPrefix` is modelled by `List.isPrefixOf` on `String.data`,
  `strings.TrimSuffix` by `trimSuffixGo`, and `strings.Split` (with a
  non-empty separator, the only use in this code) by `strSplit`, a
  fuel-based scan that splits before each leftmost non-overlapping
  occurrence of the separator.  The fuel `s.length + 1` strictly exceeds
  the number of occurrences, so it never runs out (`splitGoF_fuel_irrel`).
* Fallible Go functions returning `(T, error)` become `Except String T`.
-/

deriving instance DecidableEq for Except

namespace Capi2Argo

/-- Association-list lookup, modelling Go map indexing `m[k]`. -/
def lookupAL : List (String × String) → String → Option String
  | [], _ => none
  | (k, v) :: rest, key => if k = key then some v else lookupAL rest key

/-- Association-list insertion, modelling Go map assignment `m[k] = v`
(overwrites an existing binding in place, otherwise appends). -/
def insertAL : List (String × String) → String → String → List (String × String)
  | [], key, val => [(key, val)]
  | (k, v) :: rest, key, val =>
    if k = key then (key, val) :: rest else (k, v) :: insertAL rest key val

/-- Leftmost occurrence of `sep` in `s`: returns the part before the
occurrence and the part after it.  `none` when `sep` does not occur. -/
def firstSplit (sep : List Char) : List Char → Option (List Char × List Char)
  | [] => none
  | c :: rest =>
    if sep.isPrefixOf (c :: rest) then some ([], (c :: rest).drop sep.length)
    else
      match firstSplit sep rest with
      | none => none
      | some (pre, post) => some (c :: pre, post)

/-- Fuelled splitting at each leftmost non-overlapping occurrence of `sep`,
modelling Go `strings.Split` for a non-empty `sep`.  Each step consumes at
least one character of `s`, so fuel `s.length + 1` always suffices. -/
def splitGoF (sep : List Char) : Nat → List Char → List (List Char)
  | 0, s => [s]
  | fuel + 1, s =>
    match firstSplit sep s with
    | none => [s]
    | some (pre, post) => pre :: splitGoF sep fuel post

/-- Go `strings.Split sep s` for the non-empty separators used in this code. -/
def strSplit (sep s : String) : List String :=
  (splitGoF sep.data (s.data.length + 1) s.data).map String.mk

/-- Single-quote character as a string (avoids a quote literal in source). -/
def squote : String := String.singleton (Char.ofNat 39)

/-- Go constant `clusterTakeAlongKeyFmt` instantiated at a kind name:
`take-along-<kind>.capi-to-argocd.`. -/
def takeAlongKeyOf (metaType : String) : String :=
  "take-along-" ++ metaType ++ ".capi-to-argocd."

/-- Go constant `clusterTakenFromClusterKeyFmt` instantiated at a kind name:
`taken-from-cluster-<kind>.capi-to-argocd.`. -/
def takenFromKeyOf (metaType : String) : String :=
  "taken-from-cluster-" ++ metaType ++ ".capi-to-argocd."

/-- Error text of `extractTakeAlongMeta`
(`invalid take-along %s. missing key after '/': %s`). -/
def invalidMsg (metaType key : String) : String :=
  "invalid take-along " ++ metaType ++ ". missing key after " ++ squote ++ "/" ++
    squote ++ ": " ++ key

/-- Warning text of `buildTakeAlongArray`
(`take-along %s '%s' not found on cluster resource: %s, namespace: %s. Ignoring`). -/
def warnMsg (metaName key clName clNs : String) : String :=
  "take-along " ++ metaName ++ " " ++ squote ++ key ++ squote ++
    " not found on cluster resource: " ++ clName ++ ", namespace: " ++ clNs ++
    ". Ignoring"

/-- Embeds `extractTakeAlongMeta` (argo_cluster.go:131-144): returns the
take-along target key extracted from a raw metadata key.  Go returns
`("", nil)` for a key without the prefix, the split's second component when
non-empty, and an error otherwise. -/
def extractTakeAlongMeta (metaType key : String) : Except String String :=
  let takeAlong := takeAlongKeyOf metaType
  if takeAlong.data.isPrefixOf key.data then
    let splitResult := strSplit takeAlong key
    if 2 ≤ splitResult.length then
      if splitResult[1]! ≠ "" then Except.ok splitResult[1]!
      else Except.error (invalidMsg metaType key)
    else Except.error (invalidMsg metaType key)
  else Except.ok ""

example : extractTakeAlongMeta "label" "take-along-label.capi-to-argocd.foo" =
    Except.ok "foo" := by decide

example : extractTakeAlongMeta "label" "foo" = Except.ok "" := by decide

example : (extractTakeAlongMeta "label" "take-along-label.capi-to-argocd.").isOk =
    false := by decide

/-- Go constant `metaAnnotations` (iota 0). -/
def metaAnnotations : Nat := 0

/-- Go constant `metaLabels` (iota 1). -/
def metaLabels : Nat := 1

/-- Embeds struct `MetaType` (argo_cluster.go:77-81). -/
structure MetaType where
  Name : String
  TakeAlong : String
  TakenFrom : String
deriving DecidableEq

/-- Embeds `GetMetaType` (argo_cluster.go:46-57): kind selector to the two
key templates; an unrecognized selector leaves `Name` at the zero value. -/
def GetMetaType (metaType : Nat) : MetaType :=
  let n : String :=
    if metaType = metaAnnotations then "annotation"
    else if metaType = metaLabels then "label"
    else ""
  { Name := n, TakeAlong := takeAlongKeyOf n, TakenFrom := takenFromKeyOf n }

/-- Metadata-bearing part of the `clusterv1.Cluster` resource consumed by
`buildTakeAlongArray`: object name, namespace, labels and annotations. -/
structure ClusterMeta where
  Name : String
  Namespace : String
  Labels : List (String × String)
  Annotations : List (String × String)
deriving DecidableEq

/-- Metadata map that `buildTakeAlongArray` scans for the given kind
selector (its `switch metaType` on the cluster's maps). -/
def selectMeta (cluster : ClusterMeta) (metaType : Nat) : List (String × String) :=
  if metaType = metaAnnotations then cluster.Annotations else cluster.Labels

/-- First loop of `buildTakeAlongArray` (argo_cluster.go:164-174): run the
extractor over every metadata key in iteration order, returning the first
error if any, otherwise the non-empty extracted targets in order. -/
def scanTakeAlong (metaName : String) : List (String × String) → Except String (List String)
  | [] => Except.ok []
  | (k, _) :: rest =>
    match extractTakeAlongMeta metaName k with
    | Except.error e => Except.error e
    | Except.ok l =>
      match scanTakeAlong metaName rest with
      | Except.error e => Except.error e
      | Except.ok arr => Except.ok (if l ≠ "" then l :: arr else arr)

/-- Second loop of `buildTakeAlongArray` (argo_cluster.go:176-190): for each
extracted target key, warn and skip when the target is absent from the same
metadata map, otherwise insert `target ↦ value` and the provenance marker
`takenFrom ++ target ↦ ""`. -/
def processTakeAlongs (meta : List (String × String)) (metaName takenFrom clName clNs : String)
    (acc : List (String × String)) (errs : List String) :
    List String → List (String × String) × List String
  | [] => (acc, errs)
  | key :: rest =>
    if key ≠ "" then
      match lookupAL meta key with
      | none =>
        processTakeAlongs meta metaName takenFrom clName clNs acc
          (errs ++ [warnMsg metaName key clName clNs]) rest
      | some v =>
        processTakeAlongs meta metaName takenFrom clName clNs
          (insertAL (insertAL acc key v) (takenFrom ++ key) "") errs rest
    else processTakeAlongs meta metaName takenFrom clName clNs acc errs rest

/-- Embeds `buildTakeAlongArray` (argo_cluster.go:147-193).  On a malformed
key Go returns `(nil, [err])`; the nil map is observationally the empty map
and is modelled as `[]`.  The unrecognized-selector default returns empties. -/
def buildTakeAlongArray (cluster : ClusterMeta) (metaType : Nat) :
    List (String × String) × List String :=
  let name := cluster.Name
  let ns := cluster.Namespace
  let metaName := GetMetaType metaType
  if metaType = metaAnnotations ∨ metaType = metaLabels then
    let meta := selectMeta cluster metaType
    match scanTakeAlong metaName.Name meta with
    | Except.error e => ([], [e])
    | Except.ok takeAlongArray =>
      processTakeAlongs meta metaName.Name metaName.TakenFrom name ns [] [] takeAlongArray
  else ([], [])

/-- Go `strings.TrimSuffix`: strips one trailing occurrence of `suffix`
when present. -/
def trimSuffixGo (s sfx : String) : String :=
  if sfx.data.isSuffixOf s.data then
    String.mk (s.data.take (s.data.length - sfx.data.length))
  else s

/-- Embeds `BuildClusterName` (argo_cluster.go:204-210).  The process-wide
global `EnableNamespacedNames` is passed explicitly. -/
def BuildClusterName (s ns : String) (enableNamespacedNames : Bool) : String :=
  let p := if enableNamespacedNames then "" ++ (ns ++ "-") else ""
  p ++ s

/-- Embeds `types.NamespacedName` (name/namespace pair). -/
structure TypesNamespacedName where
  Name : String
  Namespace : String
deriving DecidableEq

/-- Embeds `BuildNamespacedName` (argo_cluster.go:196-201).  The process-wide
globals `EnableNamespacedNames` and `ArgoNamespace` are passed explicitly. -/
def BuildNamespacedName (s ns : String) (enableNamespacedNames : Bool)
    (argoNamespaceV : String) : TypesNamespacedName :=
  { Name := "cluster-" ++ BuildClusterName (trimSuffixGo s "-kubeconfig") ns enableNamespacedNames
    Namespace := argoNamespaceV }

/-- Embeds `ArgoTLS` (argo_cluster.go:84-88): pointer fields become options. -/
structure ArgoTLS where
  CaData : Option String
  CertData : Option String
  KeyData : Option String
deriving DecidableEq

/-- Embeds `ArgoConfig` (argo_cluster.go:71-74): pointer fields become options. -/
structure ArgoConfig where
  TLSClientConfig : Option ArgoTLS
  BearerToken : Option String
deriving DecidableEq

/-- Embeds `ArgoCluster` (argo_cluster.go:60-68). -/
structure ArgoCluster where
  NamespacedName : TypesNamespacedName
  ClusterName : String
  ClusterServer : String
  ClusterLabels : List (String × String)
  TakeAlongAnnotations : List (String × String)
  TakeAlongLabels : List (String × String)
  ClusterConfig : ArgoConfig
deriving DecidableEq

/-- Embeds `GetArgoCommonLabels` (argo_cluster.go:38-43); the list order is
one iteration order of the Go map literal (both keys are distinct). -/
def GetArgoCommonLabels : List (String × String) :=
  [("capi-to-argocd/owned", "true"), ("argocd.argoproj.io/secret-type", "cluster")]

/-- JSON string escaping for the escapes that can arise from the fields
serialized here (quote and backslash; Go additionally escapes control and
HTML characters, which no claim depends on). -/
def jsonEscape (s : String) : String :=
  String.mk (s.data.flatMap fun c =>
    if c = Char.ofNat 34 then [Char.ofNat 92, Char.ofNat 34]
    else if c = Char.ofNat 92 then [Char.ofNat 92, Char.ofNat 92]
    else [c])

/-- Rendering of a JSON object from its already-rendered fields, comma
separated, in struct declaration order (as `encoding/json` emits). -/
def renderObj (fields : List String) : String :=
  "\x7b" ++ String.intercalate "," fields ++ "\x7d"

/-- Rendering of one JSON string-valued field. -/
def renderStringField (k v : String) : String :=
  "\"" ++ jsonEscape k ++ "\":\"" ++ jsonEscape v ++ "\""

/-- Models `json.Marshal` output for `ArgoTLS`: each nil pointer field is
omitted entirely (`omitempty`), fields in declaration order. -/
def marshalArgoTLS (t : ArgoTLS) : String :=
  renderObj
    ((match t.CaData with | some v => [renderStringField "caData" v] | none => []) ++
     (match t.CertData with | some v => [renderStringField "certData" v] | none => []) ++
     (match t.KeyData with | some v => [renderStringField "keyData" v] | none => []))

/-- Models `json.Marshal` output for `ArgoConfig`: each nil pointer field is
omitted entirely (`omitempty`), fields in declaration order. -/
def marshalArgoConfig (a : ArgoConfig) : String :=
  renderObj
    ((match a.TLSClientConfig with
      | some t => ["\"tlsClientConfig\":" ++ marshalArgoTLS t]
      | none => []) ++
     (match a.BearerToken with
      | some b => [renderStringField "bearerToken" b]
      | none => []))

/-- Names of the JSON fields `json.Marshal` emits for an `ArgoConfig`
(present exactly when the corresponding pointer is non-nil). -/
def argoConfigFieldNames (a : ArgoConfig) : List String :=
  (match a.TLSClientConfig with | some _ => ["tlsClientConfig"] | none => []) ++
  (match a.BearerToken with | some _ => ["bearerToken"] | none => [])

/-- Embeds the generated `corev1.Secret` (the fields `ConvertToSecret`
populates); `Data` values are the byte-payload entries as strings. -/
structure Secret where
  Kind : String
  ApiVersion : String
  Name : String
  Namespace : String
  Labels : List (String × String)
  Data : List (String × String)
deriving DecidableEq

/-- Merging of one label layer into an accumulated map: a `for key, value
:= range m` loop of `m[k] = v` assignments. -/
def mergeInto (acc : List (String × String)) : List (String × String) → List (String × String)
  | [] => acc
  | (k, v) :: rest => mergeInto (insertAL acc k v) rest

/-- Embeds `ConvertToSecret` (argo_cluster.go:213-250).  `json.Marshal`
cannot fail on the fixed `ArgoConfig` shape, so the error return is
structurally unreachable and the embedding always returns `ok`. -/
def ConvertToSecret (a : ArgoCluster) : Except String Secret :=
  let c := marshalArgoConfig a.ClusterConfig
  Except.ok
    { Kind := "Secret"
      ApiVersion := "v1"
      Name := a.NamespacedName.Name
      Namespace := a.NamespacedName.Namespace
      Labels := mergeInto (mergeInto (mergeInto [] GetArgoCommonLabels) a.ClusterLabels)
        a.TakeAlongLabels
      Data := [("name", a.ClusterName), ("server", a.ClusterServer), ("config", c)] }

/-- Modelled from the spec: server and CA material of one kubeconfig cluster
entry (the `CapiCluster` type is declared outside the covered source; the
shape follows the access paths `Clusters[0].Cluster.Server` and
`Clusters[0].Cluster.CaData` in `NewArgoCluster`). -/
structure ClusterEntryData where
  Server : String
  CaData : String
deriving DecidableEq

/-- Modelled from the spec: one kubeconfig cluster entry (display name plus
cluster data), per the access paths in `NewArgoCluster`. -/
structure ClusterEntry where
  Name : String
  Cluster : ClusterEntryData
deriving DecidableEq

/-- Modelled from the spec: credential material of one kubeconfig user entry
(bearer token, client cert, client key, each optional by pointer). -/
structure UserEntryData where
  Token : Option String
  CertData : Option String
  KeyData : Option String
deriving DecidableEq

/-- Modelled from the spec: one kubeconfig user entry. -/
structure UserEntry where
  User : UserEntryData
deriving DecidableEq

/-- Modelled from the spec: kubeconfig material with its listed clusters and
users; only the first entry of each list is consulted by this core. -/
structure KubeConfig where
  Clusters : List ClusterEntry
  Users : List UserEntry
deriving DecidableEq

/-- Modelled from the spec: the CAPI cluster input object (name, namespace
and kubeconfig material), per the access paths in `NewArgoCluster`. -/
structure CapiCluster where
  Name : String
  Namespace : String
  KubeConfig : KubeConfig
deriving DecidableEq

/-- Relevant `ObjectMeta` of the source `corev1.Secret` (name, namespace). -/
structure SecretMeta where
  Name : String
  Namespace : String
deriving DecidableEq

/-- Default cluster entry used by `List.headD`; Go's `Clusters[0]` panics on
an empty list, so every theorem assumes a non-empty list, where `headD`
agrees with the Go indexing. -/
def emptyClusterEntry : ClusterEntry := { Name := "", Cluster := { Server := "", CaData := "" } }

/-- Default user entry used by `List.headD` (see `emptyClusterEntry`). -/
def emptyUserEntry : UserEntry :=
  { User := { Token := none, CertData := none, KeyData := none } }

/-- Embeds `NewArgoCluster` (argo_cluster.go:91-128).  The collected error
lists are only logged by Go and do not flow into the result; the process-wide
globals are passed explicitly.  Go never returns a non-nil error here. -/
def NewArgoCluster (c : CapiCluster) (s : SecretMeta) (cluster : Option ClusterMeta)
    (enableNamespacedNames : Bool) (argoNamespaceV : String) : Except String ArgoCluster :=
  let takeAlongLabels :=
    match cluster with
    | some cl => (buildTakeAlongArray cl metaLabels).1
    | none => []
  let takeAlongAnnotations :=
    match cluster with
    | some cl => (buildTakeAlongArray cl metaAnnotations).1
    | none => []
  let c0 := c.KubeConfig.Clusters.headD emptyClusterEntry
  let u0 := c.KubeConfig.Users.headD emptyUserEntry
  Except.ok
    { NamespacedName := BuildNamespacedName s.Name s.Namespace enableNamespacedNames argoNamespaceV
      ClusterName := BuildClusterName c0.Name s.Namespace enableNamespacedNames
      ClusterServer := c0.Cluster.Server
      ClusterLabels :=
        [("capi-to-argocd/cluster-secret-name", c.Name ++ "-kubeconfig"),
         ("capi-to-argocd/cluster-namespace", c.Namespace)]
      TakeAlongAnnotations := takeAlongAnnotations
      TakeAlongLabels := takeAlongLabels
      ClusterConfig :=
        { BearerToken := u0.User.Token
          TLSClientConfig := some
            { CaData := some c0.Cluster.CaData
              CertData := u0.User.CertData
              KeyData := u0.User.KeyData } } }

example :
    buildTakeAlongArray
      { Name := "c1", Namespace := "ns1",
        Labels := [("take-along-label.capi-to-argocd.foo", "x"), ("foo", "v")],
        Annotations := [] } metaLabels =
    ([("foo", "v"), ("taken-from-cluster-label.capi-to-argocd.foo", "")], []) := by decide

example :
    buildTakeAlongArray
      { Name := "c1", Namespace := "ns1",
        Labels := [("take-along-label.capi-to-argocd.", "x"), ("foo", "v"),
                   ("take-along-label.capi-to-argocd.foo", "y")],
        Annotations := [] } metaLabels =
    ([], [invalidMsg "label" "take-along-label.capi-to-argocd."]) := by decide

example :
    BuildNamespacedName "prod-kubeconfig" "team-a" false "argo-ns" =
    { Name := "cluster-prod", Namespace := "argo-ns" } := by decide

/-- Lookup after inserting the same key yields the inserted value. -/
theorem lookupAL_insertAL_self (m : List (String × String)) (k v : String) :
    lookupAL (insertAL m k v) k = some v := by
  induction m with
  | nil => simp [insertAL, lookupAL]
  | cons p rest ih =>
    obtain ⟨k0, v0⟩ := p
    by_cases h : k0 = k
    · simp [insertAL, h, lookupAL]
    · simp [insertAL, h, lookupAL, ih]

/-- Lookup of a different key is unchanged by an insertion. -/
theorem lookupAL_insertAL_ne (m : List (String × String)) (k v k' : String) (h : k' ≠ k) :
    lookupAL (insertAL m k v) k' = lookupAL m k' := by
  induction m with
  | nil => simp [insertAL, lookupAL, Ne.symm h]
  | cons p rest ih =>
    obtain ⟨k0, v0⟩ := p
    by_cases h0 : k0 = k
    · subst h0
      simp only [insertAL, if_pos rfl, lookupAL]
      rw [if_neg (fun he => h he.symm), if_neg (fun he => h he.symm)]
    · simp only [insertAL, if_neg h0, lookupAL]
      by_cases h1 : k0 = k'
      · simp [h1]
      · simp [h1, ih]

/-- Insertion puts the inserted key among the keys. -/
theorem mem_keys_insertAL_self (m : List (String × String)) (k v : String) :
    k ∈ (insertAL m k v).map Prod.fst := by
  induction m with
  | nil => simp [insertAL]
  | cons p rest ih =>
    obtain ⟨k0, v0⟩ := p
    by_cases h : k0 = k
    · simp [insertAL, h]
    · simp only [insertAL, if_neg h, List.map_cons, List.mem_cons]
      exact Or.inr ih

/-- Insertion preserves all existing keys. -/
theorem mem_keys_insertAL_of_mem (m : List (String × String)) (k v k' : String)
    (h : k' ∈ m.map Prod.fst) : k' ∈ (insertAL m k v).map Prod.fst := by
  induction m with
  | nil => simp at h
  | cons p rest ih =>
    obtain ⟨k0, v0⟩ := p
    simp only [List.map_cons, List.mem_cons] at h
    simp only [insertAL]
    split
    · rename_i hk
      simp only [List.map_cons, List.mem_cons]
      rcases h with h | h
      · exact Or.inl (h.trans hk)
      · exact Or.inr h
    · simp only [List.map_cons, List.mem_cons]
      rcases h with h | h
      · exact Or.inl h
      · exact Or.inr (ih h)

/-- Lookup of an absent key gives `none`. -/
theorem lookupAL_eq_none_of_not_mem (m : List (String × String)) (k : String)
    (h : k ∉ m.map Prod.fst) : lookupAL m k = none := by
  induction m with
  | nil => rfl
  | cons p rest ih =>
    obtain ⟨k0, v0⟩ := p
    simp only [List.map_cons, List.mem_cons] at h
    push_neg at h
    have hne : ¬ (k0 = k) := fun he => h.1 he.symm
    simp only [lookupAL, if_neg hne]
    exact ih h.2

/-- Merging a duplicate-free layer: the layer's own binding wins, otherwise
the accumulated map shows through. -/
theorem lookupAL_mergeInto (m : List (String × String)) (hm : (m.map Prod.fst).Nodup) :
    ∀ (acc : List (String × String)) (k : String),
      lookupAL (mergeInto acc m) k =
        match lookupAL m k with
        | some v => some v
        | none => lookupAL acc k := by
  induction m with
  | nil => intro acc k; simp [mergeInto, lookupAL]
  | cons p rest ih =>
    intro acc k
    obtain ⟨k0, v0⟩ := p
    simp only [List.map_cons, List.nodup_cons] at hm
    simp only [mergeInto]
    rw [ih hm.2]
    by_cases hk : k0 = k
    · subst hk
      rw [lookupAL_eq_none_of_not_mem rest k0 hm.1]
      simp [lookupAL, lookupAL_insertAL_self]
    · simp only [lookupAL, if_neg hk]
      cases hr : lookupAL rest k with
      | some v => rfl
      | none => simp [lookupAL_insertAL_ne _ _ _ _ (fun he => hk he.symm)]

/-- Post part of a found occurrence is strictly shorter than the scanned
list (the occurrence consumes at least the separator's head). -/
theorem firstSplit_some_length {c : Char} {cs : List Char} :
    ∀ {s pre post : List Char}, firstSplit (c :: cs) s = some (pre, post) →
      post.length < s.length := by
  intro s
  induction s with
  | nil => intro pre post h; simp [firstSplit] at h
  | cons a rest ih =>
    intro pre post h
    simp only [firstSplit] at h
    by_cases hp : (c :: cs).isPrefixOf (a :: rest) = true
    · rw [if_pos hp] at h
      injection h with h'
      have h2 : post = (a :: rest).drop (c :: cs).length := (congrArg Prod.snd h').symm
      subst h2
      simp only [List.length_cons, List.length_drop]
      omega
    · rw [if_neg hp] at h
      cases heq : firstSplit (c :: cs) rest with
      | none =>
        simp only [heq] at h
        exact Option.noConfusion h
      | some pr =>
        obtain ⟨pre1, post1⟩ := pr
        simp only [heq] at h
        injection h with h'
        have h2 : post = post1 := (congrArg Prod.snd h').symm
        subst h2
        have := ih heq
        simp only [List.length_cons]
        omega

/-- Occurrence search when the separator is a prefix of the scanned list. -/
theorem firstSplit_of_isPrefixOf {sep s : List Char} (hne : sep ≠ [])
    (h : sep.isPrefixOf s = true) :
    firstSplit sep s = some ([], s.drop sep.length) := by
  cases s with
  | nil =>
    cases sep with
    | nil => exact absurd rfl hne
    | cons c cs => simp [List.isPrefixOf] at h
  | cons a rest => simp [firstSplit, h]

/-- Result of `splitGoF` is never the empty list. -/
theorem splitGoF_ne_nil (sep : List Char) (fuel : Nat) (s : List Char) :
    splitGoF sep fuel s ≠ [] := by
  cases fuel with
  | zero => simp [splitGoF]
  | succ f =>
    simp only [splitGoF]
    split <;> simp

/-- Splitting a list without any occurrence of the separator. -/
theorem splitGoF_of_none {sep s : List Char} (h : firstSplit sep s = none) (fuel : Nat) :
    splitGoF sep fuel s = [s] := by
  cases fuel <;> simp [splitGoF, h]

/-- One splitting step at a found occurrence. -/
theorem splitGoF_succ_of_some {sep s pre post : List Char} {fuel : Nat}
    (h : firstSplit sep s = some (pre, post)) :
    splitGoF sep (fuel + 1) s = pre :: splitGoF sep fuel post := by
  simp [splitGoF, h]

/-- Fuel beyond the list length is irrelevant, so `strSplit`'s fuel of
`length + 1` computes the unbounded split. -/
theorem splitGoF_fuel_irrel {c : Char} {cs : List Char} :
    ∀ (fuel₁ fuel₂ : Nat) (s : List Char), s.length < fuel₁ → s.length < fuel₂ →
      splitGoF (c :: cs) fuel₁ s = splitGoF (c :: cs) fuel₂ s := by
  intro fuel₁
  induction fuel₁ with
  | zero => intro _ s h _; exact absurd h (Nat.not_lt_zero _)
  | succ f ih =>
    intro fuel₂ s h1 h2
    cases fuel₂ with
    | zero => exact absurd h2 (Nat.not_lt_zero _)
    | succ f2 =>
      cases hf : firstSplit (c :: cs) s with
      | none => rw [splitGoF_of_none hf, splitGoF_of_none hf]
      | some pr =>
        obtain ⟨pre, post⟩ := pr
        rw [splitGoF_succ_of_some hf, splitGoF_succ_of_some hf]
        have hlt := firstSplit_some_length hf
        have h3 : post.length < f := by omega
        have h4 : post.length < f2 := by omega
        rw [ih f2 post h3 h4]

/-- Go `strings.Contains` for the non-empty separators used here; used to
state under which keys the extractor sees a second prefix occurrence. -/
def strContainsSub (sep s : String) : Bool := (firstSplit sep.data s.data).isSome

/-- Character data of the take-along prefix, decomposed. -/
theorem takeAlongKeyOf_data (n : String) :
    (takeAlongKeyOf n).data =
      ("take-along-" : String).data ++ n.data ++ (".capi-to-argocd." : String).data := by
  simp [takeAlongKeyOf, String.data_append]

/-- Take-along prefix is never the empty string. -/
theorem takeAlongKeyOf_ne_nil (n : String) : (takeAlongKeyOf n).data ≠ [] := by
  rw [takeAlongKeyOf_data]
  intro h
  have hlen := congrArg List.length h
  have h1 : ("take-along-" : String).data.length = 11 := rfl
  have h2 : (".capi-to-argocd." : String).data.length = 16 := rfl
  simp only [List.length_append, List.length_nil, h1, h2] at hlen
  omega

/-- Keys without the take-along prefix extract to the empty target, no error. -/
theorem extract_of_not_isPrefixOf {n key : String}
    (h : (takeAlongKeyOf n).data.isPrefixOf key.data = false) :
    extractTakeAlongMeta n key = Except.ok "" := by
  simp [extractTakeAlongMeta, h]

/-- Every error the extractor produces carries the malformed-key message. -/
theorem extract_error_eq {n key e : String}
    (h : extractTakeAlongMeta n key = Except.error e) : e = invalidMsg n key := by
  simp only [extractTakeAlongMeta] at h
  split at h
  · split at h
    · split at h
      · exact Except.noConfusion h
      · injection h with h'
        exact h'.symm
    · injection h with h'
      exact h'.symm
  · exact Except.noConfusion h

/-- Key equal to the bare take-along prefix (empty remainder) is malformed. -/
theorem extract_bare_key_error (n : String) :
    extractTakeAlongMeta n (takeAlongKeyOf n) =
      Except.error (invalidMsg n (takeAlongKeyOf n)) := by
  have hne := takeAlongKeyOf_ne_nil n
  have hpre : (takeAlongKeyOf n).data.isPrefixOf (takeAlongKeyOf n).data = true :=
    List.isPrefixOf_iff_prefix.mpr (List.prefix_refl _)
  have h1 : firstSplit (takeAlongKeyOf n).data (takeAlongKeyOf n).data = some ([], []) := by
    rw [firstSplit_of_isPrefixOf hne hpre, List.drop_length]
  have h0 : firstSplit (takeAlongKeyOf n).data ([] : List Char) = none := by
    cases hd : (takeAlongKeyOf n).data with
    | nil => exact absurd hd hne
    | cons c cs => rw [← hd]; rw [hd]; rfl
  have hsplit : strSplit (takeAlongKeyOf n) (takeAlongKeyOf n) = ["", ""] := by
    unfold strSplit
    rw [splitGoF_succ_of_some h1, splitGoF_of_none h0]
    rfl
  simp [extractTakeAlongMeta, hpre, hsplit]

/-- Remainder non-empty and without a second prefix occurrence: the
extractor returns the whole remainder. -/
theorem extract_append_no_reoccur {n rest : String} (hrest : rest ≠ "")
    (hno : firstSplit (takeAlongKeyOf n).data rest.data = none) :
    extractTakeAlongMeta n (takeAlongKeyOf n ++ rest) = Except.ok rest := by
  have hne := takeAlongKeyOf_ne_nil n
  have hd : (takeAlongKeyOf n ++ rest).data = (takeAlongKeyOf n).data ++ rest.data :=
    String.data_append _ _
  have hpre : (takeAlongKeyOf n).data.isPrefixOf (takeAlongKeyOf n ++ rest).data = true := by
    rw [hd]
    exact List.isPrefixOf_iff_prefix.mpr (List.prefix_append _ _)
  have h1 : firstSplit (takeAlongKeyOf n).data (takeAlongKeyOf n ++ rest).data =
      some ([], rest.data) := by
    rw [firstSplit_of_isPrefixOf hne hpre, hd, List.drop_left]
  have hsplit : strSplit (takeAlongKeyOf n) (takeAlongKeyOf n ++ rest) = ["", rest] := by
    unfold strSplit
    rw [splitGoF_succ_of_some h1, splitGoF_of_none hno]
    rfl
  simp [extractTakeAlongMeta, hpre, hsplit, hrest]

/-- Remainder that itself starts with the prefix again: the extractor
reports the malformed-key error although the remainder is non-empty. -/
theorem extract_append_reoccur {n rest : String}
    (hre : (takeAlongKeyOf n).data.isPrefixOf rest.data = true) :
    extractTakeAlongMeta n (takeAlongKeyOf n ++ rest) =
      Except.error (invalidMsg n (takeAlongKeyOf n ++ rest)) := by
  have hne := takeAlongKeyOf_ne_nil n
  have hd : (takeAlongKeyOf n ++ rest).data = (takeAlongKeyOf n).data ++ rest.data :=
    String.data_append _ _
  have hpre : (takeAlongKeyOf n).data.isPrefixOf (takeAlongKeyOf n ++ rest).data = true := by
    rw [hd]
    exact List.isPrefixOf_iff_prefix.mpr (List.prefix_append _ _)
  have h1 : firstSplit (takeAlongKeyOf n).data (takeAlongKeyOf n ++ rest).data =
      some ([], rest.data) := by
    rw [firstSplit_of_isPrefixOf hne hpre, hd, List.drop_left]
  have h2 : firstSplit (takeAlongKeyOf n).data rest.data =
      some ([], rest.data.drop (takeAlongKeyOf n).data.length) :=
    firstSplit_of_isPrefixOf hne hre
  have hsplit : ∃ tail, strSplit (takeAlongKeyOf n) (takeAlongKeyOf n ++ rest) =
      "" :: "" :: tail := by
    unfold strSplit
    rw [splitGoF_succ_of_some h1]
    have hlen : ∃ M, (takeAlongKeyOf n ++ rest).data.length = M + 1 := by
      cases hdp : (takeAlongKeyOf n).data with
      | nil => exact absurd hdp hne
      | cons c cs =>
        refine ⟨cs.length + rest.data.length, ?_⟩
        rw [hd, hdp]
        simp [List.length_append, List.length_cons]
        try omega
    obtain ⟨M, hM⟩ := hlen
    rw [hM, splitGoF_succ_of_some h2]
    exact ⟨_, rfl⟩
  obtain ⟨tail, hsp⟩ := hsplit
  have hlen2 : 2 ≤ (strSplit (takeAlongKeyOf n) (takeAlongKeyOf n ++ rest)).length := by
    rw [hsp]
    simp only [List.length_cons]
    omega
  have hget : (strSplit (takeAlongKeyOf n) (takeAlongKeyOf n ++ rest))[1]! = "" := by
    rw [hsp]
    rw [getElem!_pos ("" :: "" :: tail) 1 (by simp only [List.length_cons]; omega)]
    rfl
  simp [extractTakeAlongMeta, hpre, hlen2, hget]

/-- Targets collected by a successful scan are never empty. -/
theorem scanTakeAlong_ok_mem_ne {n : String} :
    ∀ {m : List (String × String)} {arr : List String},
      scanTakeAlong n m = Except.ok arr → ∀ t ∈ arr, t ≠ "" := by
  intro m
  induction m with
  | nil =>
    intro arr h t ht
    injection h with h'
    subst h'
    simp at ht
  | cons p rest ih =>
    intro arr h t ht
    obtain ⟨ka, va⟩ := p
    simp only [scanTakeAlong] at h
    cases hx : extractTakeAlongMeta n ka with
    | error e => rw [hx] at h; exact Except.noConfusion h
    | ok l =>
      rw [hx] at h
      cases hs : scanTakeAlong n rest with
      | error e => simp only [hs] at h; exact Except.noConfusion h
      | ok arr' =>
        simp only [hs] at h
        injection h with h'
        subst h'
        by_cases hl : l ≠ ""
        · rw [if_pos hl] at ht
          rcases List.mem_cons.mp ht with h1 | h1
          · exact h1 ▸ hl
          · exact ih hs t h1
        · rw [if_neg hl] at ht
          exact ih hs t ht

/-- Presence of any malformed key makes the scan abort with a single
malformed-key error (for some key of the map, under the map's order). -/
theorem scanTakeAlong_error_of_mem {n : String} :
    ∀ {m : List (String × String)} {k0 : String},
      k0 ∈ m.map Prod.fst → (∃ e, extractTakeAlongMeta n k0 = Except.error e) →
      ∃ k, k ∈ m.map Prod.fst ∧ scanTakeAlong n m = Except.error (invalidMsg n k) := by
  intro m
  induction m with
  | nil => intro k0 h _; simp at h
  | cons p rest ih =>
    intro k0 hmem hex
    obtain ⟨e, he⟩ := hex
    obtain ⟨ka, va⟩ := p
    cases hx : extractTakeAlongMeta n ka with
    | error ea =>
      refine ⟨ka, by simp, ?_⟩
      have hea := extract_error_eq hx
      simp only [scanTakeAlong, hx]
      rw [hea]
    | ok l =>
      have hk0 : k0 ∈ rest.map Prod.fst := by
        rcases (by simpa using hmem : k0 = ka ∨ k0 ∈ rest.map Prod.fst) with h1 | h2
        · subst h1
          rw [hx] at he
          exact Except.noConfusion he
        · exact h2
      obtain ⟨k, hk, hs⟩ := ih hk0 ⟨e, he⟩
      refine ⟨k, by simp [hk], ?_⟩
      simp only [scanTakeAlong, hx, hs]

/-- Scan over a map whose only take-along key (possibly repeated) is
`take-along-label.capi-to-argocd.foo`: the collected targets are that many
copies of `foo`. -/
theorem scanTakeAlong_only_foo :
    ∀ {m : List (String × String)},
      (∀ p ∈ m, p.1 = "take-along-label.capi-to-argocd.foo" ∨
        (takeAlongKeyOf "label").data.isPrefixOf p.1.data = false) →
      scanTakeAlong "label" m =
        Except.ok (List.replicate
          (m.countP fun p => p.1 == "take-along-label.capi-to-argocd.foo") "foo") := by
  intro m
  induction m with
  | nil => intro _; rfl
  | cons p rest ih =>
    intro H
    obtain ⟨ka, va⟩ := p
    have hrest := ih (fun q hq => H q (List.mem_cons_of_mem _ hq))
    rcases H (ka, va) (List.mem_cons_self _ _) with hk | hk
    · simp only at hk
      subst hk
      have hx : extractTakeAlongMeta "label" "take-along-label.capi-to-argocd.foo" =
          Except.ok "foo" := by decide
      simp only [scanTakeAlong, hx, hrest]
      rw [if_pos (by decide : ("foo" : String) ≠ "")]
      rw [List.countP_cons_of_pos _ _ (by simp)]
      rw [List.replicate_succ]
    · simp only at hk
      have hx := extract_of_not_isPrefixOf hk
      simp only [scanTakeAlong, hx, hrest]
      rw [if_neg (by simp)]
      have hne : ¬ (ka = "take-along-label.capi-to-argocd.foo") := by
        intro hka
        subst hka
        have : (takeAlongKeyOf "label").data.isPrefixOf
            ("take-along-label.capi-to-argocd.foo" : String).data = true := by decide
        rw [this] at hk
        exact Bool.noConfusion hk
      rw [List.countP_cons_of_neg _ _ (by simp [hne])]

/-- Warning output of the processing loop: in scan order, exactly one
missing-target warning per target absent from the metadata map. -/
theorem processTakeAlongs_snd (meta : List (String × String)) (mn tf nm ns : String) :
    ∀ (arr : List String) (acc : List (String × String)) (errs : List String),
      (∀ t ∈ arr, t ≠ "") →
      (processTakeAlongs meta mn tf nm ns acc errs arr).2 =
        errs ++ (arr.filter fun t => (lookupAL meta t).isNone).map
          (fun t => warnMsg mn t nm ns) := by
  intro arr
  induction arr with
  | nil => intro acc errs _; simp [processTakeAlongs]
  | cons t rest ih =>
    intro acc errs hne
    have ht : t ≠ "" := hne t (List.mem_cons_self _ _)
    simp only [processTakeAlongs, if_pos ht]
    cases hl : lookupAL meta t with
    | none =>
      rw [ih _ _ (fun u hu => hne u (List.mem_cons_of_mem _ hu))]
      rw [List.filter_cons_of_pos (by simp [hl])]
      simp [List.append_assoc]
    | some v =>
      rw [ih _ _ (fun u hu => hne u (List.mem_cons_of_mem _ hu))]
      rw [List.filter_cons_of_neg (by simp [hl])]

/-- Processing only ever inserts, so existing result keys are preserved. -/
theorem processTakeAlongs_keys_mono (meta : List (String × String)) (mn tf nm ns : String) :
    ∀ (arr : List String) (acc : List (String × String)) (errs : List String) (k : String),
      k ∈ acc.map Prod.fst →
      k ∈ ((processTakeAlongs meta mn tf nm ns acc errs arr).1).map Prod.fst := by
  intro arr
  induction arr with
  | nil => intro acc errs k h; simpa [processTakeAlongs] using h
  | cons t rest ih =>
    intro acc errs k h
    simp only [processTakeAlongs]
    by_cases ht : t = ""
    · rw [if_neg (by simp [ht])]
      exact ih _ _ _ h
    · rw [if_pos ht]
      cases hl : lookupAL meta t with
      | none => exact ih _ _ _ h
      | some v =>
        exact ih _ _ _ (mem_keys_insertAL_of_mem _ _ _ _ (mem_keys_insertAL_of_mem _ _ _ _ h))

/-- Every processed target with a present value ends up among the result's
keys, together with its provenance marker key. -/
theorem processTakeAlongs_mem_keys (meta : List (String × String)) (mn tf nm ns : String) :
    ∀ (arr : List String) (acc : List (String × String)) (errs : List String) (t : String),
      t ∈ arr → t ≠ "" → (lookupAL meta t).isSome = true →
      t ∈ ((processTakeAlongs meta mn tf nm ns acc errs arr).1).map Prod.fst ∧
      (tf ++ t) ∈ ((processTakeAlongs meta mn tf nm ns acc errs arr).1).map Prod.fst := by
  intro arr
  induction arr with
  | nil => intro _ _ t h; simp at h
  | cons u rest ih =>
    intro acc errs t hmem ht hsome
    rcases List.mem_cons.mp hmem with heq | hrest
    · subst heq
      simp only [processTakeAlongs, if_pos ht]
      cases hl : lookupAL meta t with
      | none => rw [hl] at hsome; exact Bool.noConfusion hsome
      | some v =>
        constructor
        · exact processTakeAlongs_keys_mono meta mn tf nm ns rest _ _ t
            (mem_keys_insertAL_of_mem _ _ _ _ (mem_keys_insertAL_self _ _ _))
        · exact processTakeAlongs_keys_mono meta mn tf nm ns rest _ _ (tf ++ t)
            (mem_keys_insertAL_self _ _ _)
    · simp only [processTakeAlongs]
      by_cases hu : u = ""
      · rw [if_neg (by simp [hu])]
        exact ih _ _ t hrest ht hsome
      · rw [if_pos hu]
        cases hl : lookupAL meta u with
        | none => exact ih _ _ t hrest ht hsome
        | some v => exact ih _ _ t hrest ht hsome

/-- Bound value of `t` survives processing when no processed target's
provenance marker key collides with `t`. -/
theorem processTakeAlongs_lookup_pres (meta : List (String × String)) (mn tf nm ns t v : String)
    (hmv : lookupAL meta t = some v) :
    ∀ (arr : List String) (acc : List (String × String)) (errs : List String),
      lookupAL acc t = some v →
      (∀ u ∈ arr, (lookupAL meta u).isSome = true → tf ++ u ≠ t) →
      lookupAL ((processTakeAlongs meta mn tf nm ns acc errs arr).1) t = some v := by
  intro arr
  induction arr with
  | nil => intro acc errs hacc _; simpa [processTakeAlongs] using hacc
  | cons u rest ih =>
    intro acc errs hacc hmark
    simp only [processTakeAlongs]
    by_cases hu : u = ""
    · rw [if_neg (by simp [hu])]
      exact ih _ _ hacc (fun w hw => hmark w (List.mem_cons_of_mem _ hw))
    · rw [if_pos hu]
      cases hl : lookupAL meta u with
      | none => exact ih _ _ hacc (fun w hw => hmark w (List.mem_cons_of_mem _ hw))
      | some w =>
        refine ih _ _ ?_ (fun w' hw => hmark w' (List.mem_cons_of_mem _ hw))
        have hne : tf ++ u ≠ t := hmark u (List.mem_cons_self _ _) (by simp [hl])
        rw [lookupAL_insertAL_ne _ _ _ _ (fun h => hne h.symm)]
        by_cases hut : u = t
        · subst hut
          rw [hl] at hmv
          injection hmv with hv
          subst hv
          exact lookupAL_insertAL_self _ _ _
        · rw [lookupAL_insertAL_ne _ _ _ _ (fun h => hut h.symm)]
          exact hacc

/-- Processed target with a present value: its binding is in the result,
provided no processed target's marker key collides with it. -/
theorem processTakeAlongs_lookup (meta : List (String × String)) (mn tf nm ns t v : String)
    (hmv : lookupAL meta t = some v) :
    ∀ (arr : List String) (acc : List (String × String)) (errs : List String),
      t ∈ arr → t ≠ "" →
      (∀ u ∈ arr, (lookupAL meta u).isSome = true → tf ++ u ≠ t) →
      lookupAL ((processTakeAlongs meta mn tf nm ns acc errs arr).1) t = some v := by
  intro arr
  induction arr with
  | nil => intro _ _ h; simp at h
  | cons u rest ih =>
    intro acc errs hmem ht hmark
    rcases List.mem_cons.mp hmem with heq | hrest
    · subst heq
      simp only [processTakeAlongs, if_pos ht, hmv]
      refine processTakeAlongs_lookup_pres meta mn tf nm ns t v hmv rest _ _ ?_
        (fun w hw => hmark w (List.mem_cons_of_mem _ hw))
      have hne : tf ++ t ≠ t := hmark t (List.mem_cons_self _ _) (by simp [hmv])
      rw [lookupAL_insertAL_ne _ _ _ _ (fun h => hne h.symm)]
      exact lookupAL_insertAL_self _ _ _
    · simp only [processTakeAlongs]
      by_cases hu : u = ""
      · rw [if_neg (by simp [hu])]
        exact ih _ _ hrest ht (fun w hw => hmark w (List.mem_cons_of_mem _ hw))
      · rw [if_pos hu]
        cases hl : lookupAL meta u with
        | none => exact ih _ _ hrest ht (fun w hw => hmark w (List.mem_cons_of_mem _ hw))
        | some w => exact ih _ _ hrest ht (fun w' hw => hmark w' (List.mem_cons_of_mem _ hw))

/-- Processing repeated `foo` targets is idempotent on the two-entry result. -/
theorem processTakeAlongs_foo_aux (meta : List (String × String)) (nm ns : String)
    (hv : lookupAL meta "foo" = some "v") :
    ∀ (n : Nat),
      processTakeAlongs meta "label" "taken-from-cluster-label.capi-to-argocd." nm ns
        [("foo", "v"), ("taken-from-cluster-label.capi-to-argocd.foo", "")] []
        (List.replicate n "foo") =
      ([("foo", "v"), ("taken-from-cluster-label.capi-to-argocd.foo", "")], []) := by
  intro n
  induction n with
  | zero => rfl
  | succ n ih =>
    rw [List.replicate_succ]
    simp only [processTakeAlongs, hv]
    rw [if_pos (by decide : ("foo" : String) ≠ "")]
    have hins : insertAL (insertAL
        [("foo", "v"), ("taken-from-cluster-label.capi-to-argocd.foo", "")] "foo" "v")
        ("taken-from-cluster-label.capi-to-argocd." ++ "foo") "" =
        [("foo", "v"), ("taken-from-cluster-label.capi-to-argocd.foo", "")] := by decide
    rw [hins]
    exact ih

/-- Processing at least one `foo` target from the empty accumulator yields
exactly the copied entry plus its provenance marker, with no warnings. -/
theorem processTakeAlongs_foo (meta : List (String × String)) (nm ns : String)
    (hv : lookupAL meta "foo" = some "v") :
    ∀ (n : Nat),
      processTakeAlongs meta "label" "taken-from-cluster-label.capi-to-argocd." nm ns
        [] [] (List.replicate (n + 1) "foo") =
      ([("foo", "v"), ("taken-from-cluster-label.capi-to-argocd.foo", "")], []) := by
  intro n
  rw [List.replicate_succ]
  simp only [processTakeAlongs, hv]
  rw [if_pos (by decide : ("foo" : String) ≠ "")]
  have hins : insertAL (insertAL [] "foo" "v")
      ("taken-from-cluster-label.capi-to-argocd." ++ "foo") "" =
      [("foo", "v"), ("taken-from-cluster-label.capi-to-argocd.foo", "")] := by decide
  rw [hins]
  exact processTakeAlongs_foo_aux meta nm ns hv n

/-- Collector unfolding for the two recognized kind selectors. -/
theorem buildTakeAlongArray_eq (cluster : ClusterMeta) (mt : Nat)
    (h : mt = metaLabels ∨ mt = metaAnnotations) :
    buildTakeAlongArray cluster mt =
      match scanTakeAlong (GetMetaType mt).Name (selectMeta cluster mt) with
      | Except.error e => ([], [e])
      | Except.ok arr =>
        processTakeAlongs (selectMeta cluster mt) (GetMetaType mt).Name
          (GetMetaType mt).TakenFrom cluster.Name cluster.Namespace [] [] arr := by
  rcases h with h | h <;> subst h <;> rfl

/-- Collector output when the scan hits a malformed key: empty map and
exactly that one error. -/
theorem buildTakeAlongArray_of_scan_error (cluster : ClusterMeta) (mt : Nat)
    (h : mt = metaLabels ∨ mt = metaAnnotations) (e : String)
    (hs : scanTakeAlong (GetMetaType mt).Name (selectMeta cluster mt) = Except.error e) :
    buildTakeAlongArray cluster mt = ([], [e]) := by
  rw [buildTakeAlongArray_eq cluster mt h, hs]

/-- Collector output when the scan succeeds: the processing loop's output. -/
theorem buildTakeAlongArray_of_scan_ok (cluster : ClusterMeta) (mt : Nat)
    (h : mt = metaLabels ∨ mt = metaAnnotations) (arr : List String)
    (hs : scanTakeAlong (GetMetaType mt).Name (selectMeta cluster mt) = Except.ok arr) :
    buildTakeAlongArray cluster mt =
      processTakeAlongs (selectMeta cluster mt) (GetMetaType mt).Name
        (GetMetaType mt).TakenFrom cluster.Name cluster.Namespace [] [] arr := by
  rw [buildTakeAlongArray_eq cluster mt h, hs]

/-- Stripping an actually-present suffix recovers the base. -/
theorem trimSuffixGo_append (base sfx : String) :
    trimSuffixGo (base ++ sfx) sfx = base := by
  have hd : (base ++ sfx).data = base.data ++ sfx.data := String.data_append _ _
  have hsuf : sfx.data.isSuffixOf (base ++ sfx).data = true := by
    rw [hd]
    exact List.isSuffixOf_iff_suffix.mpr (List.suffix_append _ _)
  unfold trimSuffixGo
  rw [hsuf]
  simp only [if_pos rfl, hd, List.length_append]
  have h1 : base.data.length + sfx.data.length - sfx.data.length = base.data.length := by omega
  rw [h1, List.take_left base.data sfx.data]
  simp

/-- Stripping leaves a string unchanged when it does not end in the suffix. -/
theorem trimSuffixGo_of_no_suffix (s sfx : String)
    (h : ∀ base : String, s ≠ base ++ sfx) : trimSuffixGo s sfx = s := by
  unfold trimSuffixGo
  cases hsuf : sfx.data.isSuffixOf s.data with
  | false => rfl
  | true =>
    exfalso
    obtain ⟨t, ht⟩ := List.isSuffixOf_iff_suffix.mp hsuf
    apply h (String.mk t)
    cases s with
    | mk sd =>
      have : (String.mk t ++ sfx).data = t ++ sfx.data := String.data_append _ _
      have h2 : sd = t ++ sfx.data := ht.symm
      subst h2
      exact congrArg String.mk this.symm

/-- C7: `BuildClusterName` returns the raw name unchanged when the
namespacing toggle is disabled and `namespace ++ "-" ++ rawName` when it is
enabled; in particular `("prod", "team-a")` gives `"prod"` when disabled and
`"team-a-prod"` when enabled. -/
theorem c7_buildClusterName_toggle (s ns : String) :
    BuildClusterName s ns false = s ∧
    BuildClusterName s ns true = ns ++ "-" ++ s ∧
    BuildClusterName "prod" "team-a" false = "prod" ∧
    BuildClusterName "prod" "team-a" true = "team-a-prod" := by
  refine ⟨rfl, ?_, rfl, by decide⟩
  show ("" ++ (ns ++ "-")) ++ s = ns ++ "-" ++ s
  rfl

/-- C6: `BuildNamespacedName` strips one trailing `-kubeconfig` from the
source secret name, passes the base through `BuildClusterName`, prepends
`cluster-`, and pairs the result with the configured Argo namespace (never
the source namespace). -/
theorem c6_buildNamespacedName (s ns : String) (enable : Bool) (argoNS : String) :
    (BuildNamespacedName s ns enable argoNS).Namespace = argoNS ∧
    (∀ base : String, s = base ++ "-kubeconfig" →
      (BuildNamespacedName s ns enable argoNS).Name =
        "cluster-" ++ BuildClusterName base ns enable) ∧
    ((∀ base : String, s ≠ base ++ "-kubeconfig") →
      (BuildNamespacedName s ns enable argoNS).Name =
        "cluster-" ++ BuildClusterName s ns enable) ∧
    (∀ base : String, s = base ++ "-kubeconfig" → enable = false →
      (BuildNamespacedName s ns enable argoNS).Name = "cluster-" ++ base) ∧
    (∀ base : String, s = base ++ "-kubeconfig" → enable = true →
      (BuildNamespacedName s ns enable argoNS).Name = "cluster-" ++ ns ++ "-" ++ base) := by
  refine ⟨rfl, ?_, ?_, ?_, ?_⟩
  · intro base hb
    subst hb
    show "cluster-" ++ BuildClusterName (trimSuffixGo (base ++ "-kubeconfig") "-kubeconfig")
      ns enable = _
    rw [trimSuffixGo_append]
  · intro h
    show "cluster-" ++ BuildClusterName (trimSuffixGo s "-kubeconfig") ns enable = _
    rw [trimSuffixGo_of_no_suffix s _ h]
  · intro base hb he
    subst hb
    subst he
    show "cluster-" ++ BuildClusterName (trimSuffixGo (base ++ "-kubeconfig") "-kubeconfig")
      ns false = _
    rw [trimSuffixGo_append]
    rfl
  · intro base hb he
    subst hb
    subst he
    show "cluster-" ++ BuildClusterName (trimSuffixGo (base ++ "-kubeconfig") "-kubeconfig")
      ns true = _
    rw [trimSuffixGo_append]
    show "cluster-" ++ (("" ++ (ns ++ "-")) ++ base) = "cluster-" ++ ns ++ "-" ++ base
    simp [String.append_assoc]

/-- Witness for C6 at the spec's example input. -/
theorem c6_buildNamespacedName_witness :
    (BuildNamespacedName "prod-kubeconfig" "team-a" false "argo-ns").Name = "cluster-prod" ∧
    (BuildNamespacedName "prod-kubeconfig" "team-a" false "argo-ns").Namespace = "argo-ns" := by
  have h := c6_buildNamespacedName "prod-kubeconfig" "team-a" false "argo-ns"
  refine ⟨?_, h.1⟩
  have h4 := h.2.2.2.1 "prod" (by decide) rfl
  exact h4.trans (by decide)

/-- C8: serializing an `ArgoConfig` omits absent optional fields entirely —
only a bearer token yields exactly a `bearerToken` field and no
`tlsClientConfig` field, all fields unset yields the empty JSON object,
and in general each field name is present iff its value is set. -/
theorem c8_config_omitempty (t : String) :
    argoConfigFieldNames { TLSClientConfig := none, BearerToken := some t } = ["bearerToken"] ∧
    "tlsClientConfig" ∉ argoConfigFieldNames { TLSClientConfig := none, BearerToken := some t } ∧
    marshalArgoConfig { TLSClientConfig := none, BearerToken := some t } =
      "\x7b" ++ renderStringField "bearerToken" t ++ "\x7d" ∧
    marshalArgoConfig { TLSClientConfig := none, BearerToken := none } = "\x7b\x7d" ∧
    (∀ cfg : ArgoConfig,
      ("tlsClientConfig" ∈ argoConfigFieldNames cfg ↔ cfg.TLSClientConfig ≠ none) ∧
      ("bearerToken" ∈ argoConfigFieldNames cfg ↔ cfg.BearerToken ≠ none)) := by
  refine ⟨rfl, by simp [argoConfigFieldNames], rfl, by decide, ?_⟩
  intro cfg
  obtain ⟨tls, tok⟩ := cfg
  cases tls <;> cases tok <;> simp [argoConfigFieldNames]

/-- C5: the generated secret's labels are the three layers merged with
later layers winning — take-along over identity labels over the static
common labels; in particular a take-along key colliding with a common
label keeps the take-along value. -/
theorem c5_merged_labels (a : ArgoCluster) (s : Secret) (k : String)
    (h1 : (a.ClusterLabels.map Prod.fst).Nodup)
    (h2 : (a.TakeAlongLabels.map Prod.fst).Nodup)
    (hs : ConvertToSecret a = Except.ok s) :
    (lookupAL s.Labels k =
      match lookupAL a.TakeAlongLabels k with
      | some v => some v
      | none =>
        match lookupAL a.ClusterLabels k with
        | some v => some v
        | none => lookupAL GetArgoCommonLabels k) ∧
    (∀ v, lookupAL GetArgoCommonLabels k ≠ none →
      lookupAL a.TakeAlongLabels k = some v → lookupAL s.Labels k = some v) := by
  unfold ConvertToSecret at hs
  injection hs with h'
  subst h'
  have hmain :
      lookupAL (mergeInto (mergeInto (mergeInto [] GetArgoCommonLabels) a.ClusterLabels)
        a.TakeAlongLabels) k =
      match lookupAL a.TakeAlongLabels k with
      | some v => some v
      | none =>
        match lookupAL a.ClusterLabels k with
        | some v => some v
        | none => lookupAL GetArgoCommonLabels k := by
    rw [lookupAL_mergeInto _ h2, lookupAL_mergeInto _ h1,
      lookupAL_mergeInto _ (by decide : (GetArgoCommonLabels.map Prod.fst).Nodup)]
    cases lookupAL a.TakeAlongLabels k <;> cases lookupAL a.ClusterLabels k <;>
      cases hC : lookupAL GetArgoCommonLabels k <;> simp [lookupAL]
  refine ⟨hmain, ?_⟩
  intro v _ hTL
  rw [show (Secret.Labels
      { Kind := "Secret", ApiVersion := "v1", Name := a.NamespacedName.Name,
        Namespace := a.NamespacedName.Namespace,
        Labels := mergeInto (mergeInto (mergeInto [] GetArgoCommonLabels) a.ClusterLabels)
          a.TakeAlongLabels,
        Data := [("name", a.ClusterName), ("server", a.ClusterServer),
          ("config", marshalArgoConfig a.ClusterConfig)] }) =
      mergeInto (mergeInto (mergeInto [] GetArgoCommonLabels) a.ClusterLabels)
        a.TakeAlongLabels from rfl, hmain, hTL]

/-- Witness for C5: a take-along label colliding with the static common
label `capi-to-argocd/owned` wins in the merged labels. -/
theorem c5_merged_labels_witness :
    lookupAL
      (mergeInto (mergeInto (mergeInto [] GetArgoCommonLabels) [])
        [("capi-to-argocd/owned", "overridden")]) "capi-to-argocd/owned" =
      some "overridden" := by
  have h := c5_merged_labels
    { NamespacedName := { Name := "n", Namespace := "ns" },
      ClusterName := "cn", ClusterServer := "srv",
      ClusterLabels := [],
      TakeAlongAnnotations := [],
      TakeAlongLabels := [("capi-to-argocd/owned", "overridden")],
      ClusterConfig := { TLSClientConfig := none, BearerToken := none } }
    { Kind := "Secret", ApiVersion := "v1", Name := "n", Namespace := "ns",
      Labels := mergeInto (mergeInto (mergeInto [] GetArgoCommonLabels) [])
        [("capi-to-argocd/owned", "overridden")],
      Data := [("name", "cn"), ("server", "srv"),
        ("config", marshalArgoConfig { TLSClientConfig := none, BearerToken := none })] }
    "capi-to-argocd/owned" (by decide) (by decide) rfl
  exact h.2 "overridden" (by decide) (by decide)

/-- C1: a metadata map of the selected kind containing a malformed
take-along key (the bare prefix with empty remainder) makes the collector
abort: it returns the empty take-along map — no partial entries — and
exactly one malformed-key error (for one of the map's keys). -/
theorem c1_malformed_aborts (cluster : ClusterMeta) (mt : Nat)
    (hmt : mt = metaLabels ∨ mt = metaAnnotations)
    (hmem : (GetMetaType mt).TakeAlong ∈ (selectMeta cluster mt).map Prod.fst) :
    ∃ k, k ∈ (selectMeta cluster mt).map Prod.fst ∧
      buildTakeAlongArray cluster mt = ([], [invalidMsg (GetMetaType mt).Name k]) := by
  have hex : ∃ e, extractTakeAlongMeta (GetMetaType mt).Name (GetMetaType mt).TakeAlong =
      Except.error e :=
    ⟨invalidMsg (GetMetaType mt).Name (takeAlongKeyOf (GetMetaType mt).Name),
      extract_bare_key_error (GetMetaType mt).Name⟩
  obtain ⟨k, hk, hs⟩ := scanTakeAlong_error_of_mem hmem hex
  exact ⟨k, hk, buildTakeAlongArray_of_scan_error cluster mt hmt _ hs⟩

/-- Witness for C1: a labels map with the bare prefix key alongside an
otherwise-valid take-along key and its target. -/
theorem c1_malformed_aborts_witness :
    ∃ k, k ∈ ((selectMeta
        { Name := "c1", Namespace := "ns1",
          Labels := [("take-along-label.capi-to-argocd.", "x"),
                     ("take-along-label.capi-to-argocd.foo", "y"), ("foo", "v")],
          Annotations := [] } metaLabels).map Prod.fst) ∧
      buildTakeAlongArray
        { Name := "c1", Namespace := "ns1",
          Labels := [("take-along-label.capi-to-argocd.", "x"),
                     ("take-along-label.capi-to-argocd.foo", "y"), ("foo", "v")],
          Annotations := [] } metaLabels =
        ([], [invalidMsg (GetMetaType metaLabels).Name k]) :=
  c1_malformed_aborts
    { Name := "c1", Namespace := "ns1",
      Labels := [("take-along-label.capi-to-argocd.", "x"),
                 ("take-along-label.capi-to-argocd.foo", "y"), ("foo", "v")],
      Annotations := [] } metaLabels (Or.inl rfl) (by decide)

/-- C2: a labels map whose only take-along key is
`take-along-label.capi-to-argocd.foo`, with sibling `foo ↦ "v"`, makes the
collector return exactly `foo ↦ "v"` plus the empty-valued provenance
marker, with no warnings. -/
theorem c2_single_takealong (cluster : ClusterMeta)
    (hmem : "take-along-label.capi-to-argocd.foo" ∈ cluster.Labels.map Prod.fst)
    (hfoo : lookupAL cluster.Labels "foo" = some "v")
    (honly : ∀ p ∈ cluster.Labels, p.1 = "take-along-label.capi-to-argocd.foo" ∨
      (takeAlongKeyOf "label").data.isPrefixOf p.1.data = false) :
    buildTakeAlongArray cluster metaLabels =
      ([("foo", "v"), ("taken-from-cluster-label.capi-to-argocd.foo", "")], []) := by
  have hscan := scanTakeAlong_only_foo honly
  have hsel : selectMeta cluster metaLabels = cluster.Labels := rfl
  have hname : (GetMetaType metaLabels).Name = "label" := rfl
  have hTF : (GetMetaType metaLabels).TakenFrom =
      "taken-from-cluster-label.capi-to-argocd." := rfl
  have hpos : 0 < cluster.Labels.countP
      (fun p => p.1 == "take-along-label.capi-to-argocd.foo") := by
    rw [List.countP_pos_iff]
    obtain ⟨p, hp, hfst⟩ := List.mem_map.mp hmem
    exact ⟨p, hp, by simp [hfst]⟩
  obtain ⟨c, hc⟩ : ∃ c, cluster.Labels.countP
      (fun p => p.1 == "take-along-label.capi-to-argocd.foo") = c + 1 :=
    ⟨cluster.Labels.countP (fun p => p.1 == "take-along-label.capi-to-argocd.foo") - 1,
      by omega⟩
  have hs2 : scanTakeAlong (GetMetaType metaLabels).Name (selectMeta cluster metaLabels) =
      Except.ok (List.replicate (c + 1) "foo") := by
    rw [hname, hsel, hscan, hc]
  rw [buildTakeAlongArray_of_scan_ok cluster metaLabels (Or.inl rfl) _ hs2, hsel, hname, hTF]
  exact processTakeAlongs_foo cluster.Labels cluster.Name cluster.Namespace hfoo c

/-- Witness for C2 at the spec's example map. -/
theorem c2_single_takealong_witness :
    buildTakeAlongArray
      { Name := "c1", Namespace := "ns1",
        Labels := [("take-along-label.capi-to-argocd.foo", "x"), ("foo", "v")],
        Annotations := [] } metaLabels =
      ([("foo", "v"), ("taken-from-cluster-label.capi-to-argocd.foo", "")], []) :=
  c2_single_takealong
    { Name := "c1", Namespace := "ns1",
      Labels := [("take-along-label.capi-to-argocd.foo", "x"), ("foo", "v")],
      Annotations := [] } (by decide) (by decide) (by decide)

/-- C3 counterexample: the raw key whose remainder after the prefix is the
non-empty string `take-along-label.capi-to-argocd.x` (itself starting with
the prefix again) is rejected with a malformed-key error instead of
returning that remainder — `strings.Split` splits at every occurrence. -/
theorem c3_counterexample :
    ("take-along-label.capi-to-argocd.take-along-label.capi-to-argocd.x" : String) =
      takeAlongKeyOf "label" ++ "take-along-label.capi-to-argocd.x" ∧
    ("take-along-label.capi-to-argocd.x" : String) ≠ "" ∧
    extractTakeAlongMeta "label"
        "take-along-label.capi-to-argocd.take-along-label.capi-to-argocd.x" ≠
      Except.ok "take-along-label.capi-to-argocd.x" ∧
    extractTakeAlongMeta "label"
        "take-along-label.capi-to-argocd.take-along-label.capi-to-argocd.x" =
      Except.error (invalidMsg "label"
        "take-along-label.capi-to-argocd.take-along-label.capi-to-argocd.x") :=
  ⟨by decide, by decide, by decide, by decide⟩

/-- C3 (amended): for a raw key built as prefix ++ remainder, the extractor
returns the remainder with no error when the remainder is non-empty and
does not contain the prefix again; when the remainder itself begins with
the prefix, the extractor instead reports the malformed-key error. -/
theorem c3_extract_amended (metaType rest : String) :
    (rest ≠ "" → strContainsSub (takeAlongKeyOf metaType) rest = false →
      extractTakeAlongMeta metaType (takeAlongKeyOf metaType ++ rest) = Except.ok rest) ∧
    ((takeAlongKeyOf metaType).data.isPrefixOf rest.data = true →
      extractTakeAlongMeta metaType (takeAlongKeyOf metaType ++ rest) =
        Except.error (invalidMsg metaType (takeAlongKeyOf metaType ++ rest))) := by
  constructor
  · intro h1 h2
    apply extract_append_no_reoccur h1
    unfold strContainsSub at h2
    cases hf : firstSplit (takeAlongKeyOf metaType).data rest.data with
    | none => rfl
    | some pr =>
      rw [hf] at h2
      simp at h2
  · intro h
    exact extract_append_reoccur h

/-- Witness for C3 (amended) at both branches. -/
theorem c3_extract_amended_witness :
    extractTakeAlongMeta "label" (takeAlongKeyOf "label" ++ "foo") = Except.ok "foo" ∧
    extractTakeAlongMeta "label"
        (takeAlongKeyOf "label" ++ "take-along-label.capi-to-argocd.x") =
      Except.error (invalidMsg "label"
        (takeAlongKeyOf "label" ++ "take-along-label.capi-to-argocd.x")) :=
  ⟨(c3_extract_amended "label" "foo").1 (by decide) (by decide),
   (c3_extract_amended "label" "take-along-label.capi-to-argocd.x").2 (by decide)⟩

/-- C4 counterexample: with no malformed keys, a take-along key targeting
`taken-from-cluster-label.capi-to-argocd.x` (present with value `v2`) is
processed, but a later target's provenance marker key overwrites its entry
with the empty string, so the entry does not appear in the returned map. -/
theorem c4_counterexample :
    scanTakeAlong "label"
      [("take-along-label.capi-to-argocd.missing", "a"),
       ("take-along-label.capi-to-argocd.taken-from-cluster-label.capi-to-argocd.x", "b"),
       ("taken-from-cluster-label.capi-to-argocd.x", "v2"),
       ("take-along-label.capi-to-argocd.x", "c"),
       ("x", "v")] =
      Except.ok ["missing", "taken-from-cluster-label.capi-to-argocd.x", "x"] ∧
    lookupAL
      [("take-along-label.capi-to-argocd.missing", "a"),
       ("take-along-label.capi-to-argocd.taken-from-cluster-label.capi-to-argocd.x", "b"),
       ("taken-from-cluster-label.capi-to-argocd.x", "v2"),
       ("take-along-label.capi-to-argocd.x", "c"),
       ("x", "v")] "taken-from-cluster-label.capi-to-argocd.x" = some "v2" ∧
    lookupAL (buildTakeAlongArray
      { Name := "c1", Namespace := "ns1",
        Labels :=
          [("take-along-label.capi-to-argocd.missing", "a"),
           ("take-along-label.capi-to-argocd.taken-from-cluster-label.capi-to-argocd.x", "b"),
           ("taken-from-cluster-label.capi-to-argocd.x", "v2"),
           ("take-along-label.capi-to-argocd.x", "c"),
           ("x", "v")],
        Annotations := [] } metaLabels).1
      "taken-from-cluster-label.capi-to-argocd.x" = some "" ∧
    (buildTakeAlongArray
      { Name := "c1", Namespace := "ns1",
        Labels :=
          [("take-along-label.capi-to-argocd.missing", "a"),
           ("take-along-label.capi-to-argocd.taken-from-cluster-label.capi-to-argocd.x", "b"),
           ("taken-from-cluster-label.capi-to-argocd.x", "v2"),
           ("take-along-label.capi-to-argocd.x", "c"),
           ("x", "v")],
        Annotations := [] } metaLabels).2 =
      [warnMsg "label" "missing" "c1" "ns1"] :=
  ⟨by decide, by decide, by decide, by decide⟩

/-- C4 (amended): with no malformed take-along keys of the selected kind
(the scan succeeds with targets `arr`), the collector emits, in order,
exactly one missing-target warning per target absent from the map and skips
only those; every other target is still processed — its key and its
provenance marker key appear in the returned map, and its full entry
(target ↦ source value) appears whenever no other processed target's
provenance marker key collides with it (such a collision can overwrite the
entry, as the counterexample shows). -/
theorem c4_missing_target_amended (cluster : ClusterMeta) (mt : Nat) (arr : List String)
    (hmt : mt = metaLabels ∨ mt = metaAnnotations)
    (hscan : scanTakeAlong (GetMetaType mt).Name (selectMeta cluster mt) = Except.ok arr) :
    ((buildTakeAlongArray cluster mt).2 =
      (arr.filter fun t => (lookupAL (selectMeta cluster mt) t).isNone).map
        (fun t => warnMsg (GetMetaType mt).Name t cluster.Name cluster.Namespace)) ∧
    (∀ t ∈ arr, (lookupAL (selectMeta cluster mt) t).isSome = true →
      t ∈ ((buildTakeAlongArray cluster mt).1).map Prod.fst ∧
      ((GetMetaType mt).TakenFrom ++ t) ∈
        ((buildTakeAlongArray cluster mt).1).map Prod.fst) ∧
    (∀ t v, t ∈ arr → lookupAL (selectMeta cluster mt) t = some v →
      (∀ u ∈ arr, (lookupAL (selectMeta cluster mt) u).isSome = true →
        (GetMetaType mt).TakenFrom ++ u ≠ t) →
      lookupAL ((buildTakeAlongArray cluster mt).1) t = some v) := by
  have hb := buildTakeAlongArray_of_scan_ok cluster mt hmt arr hscan
  have hne := scanTakeAlong_ok_mem_ne hscan
  refine ⟨?_, ?_, ?_⟩
  · rw [hb, processTakeAlongs_snd _ _ _ _ _ arr [] [] hne, List.nil_append]
  · intro t ht hsome
    rw [hb]
    exact processTakeAlongs_mem_keys _ _ _ _ _ arr [] [] t ht (hne t ht) hsome
  · intro t v ht hv hmark
    rw [hb]
    exact processTakeAlongs_lookup _ _ _ _ _ t v hv arr [] [] ht (hne t ht) hmark

/-- Witness for C4 (amended): one missing target (warned, skipped) next to
one present target (copied with its marker). -/
theorem c4_missing_target_amended_witness :
    ((buildTakeAlongArray
      { Name := "c1", Namespace := "ns1",
        Labels := [("take-along-label.capi-to-argocd.missing", "a"),
                   ("take-along-label.capi-to-argocd.x", "b"), ("x", "v")],
        Annotations := [] } metaLabels).2 =
      ((["missing", "x"].filter fun t => (lookupAL (selectMeta
        { Name := "c1", Namespace := "ns1",
          Labels := [("take-along-label.capi-to-argocd.missing", "a"),
                     ("take-along-label.capi-to-argocd.x", "b"), ("x", "v")],
          Annotations := [] } metaLabels) t).isNone).map
        (fun t => warnMsg (GetMetaType metaLabels).Name t "c1" "ns1"))) ∧
    (∀ t ∈ (["missing", "x"] : List String),
      (lookupAL (selectMeta
        { Name := "c1", Namespace := "ns1",
          Labels := [("take-along-label.capi-to-argocd.missing", "a"),
                     ("take-along-label.capi-to-argocd.x", "b"), ("x", "v")],
          Annotations := [] } metaLabels) t).isSome = true →
      t ∈ ((buildTakeAlongArray
        { Name := "c1", Namespace := "ns1",
          Labels := [("take-along-label.capi-to-argocd.missing", "a"),
                     ("take-along-label.capi-to-argocd.x", "b"), ("x", "v")],
          Annotations := [] } metaLabels).1).map Prod.fst ∧
      ((GetMetaType metaLabels).TakenFrom ++ t) ∈ ((buildTakeAlongArray
        { Name := "c1", Namespace := "ns1",
          Labels := [("take-along-label.capi-to-argocd.missing", "a"),
                     ("take-along-label.capi-to-argocd.x", "b"), ("x", "v")],
          Annotations := [] } metaLabels).1).map Prod.fst) ∧
    (∀ t v, t ∈ (["missing", "x"] : List String) →
      lookupAL (selectMeta
        { Name := "c1", Namespace := "ns1",
          Labels := [("take-along-label.capi-to-argocd.missing", "a"),
                     ("take-along-label.capi-to-argocd.x", "b"), ("x", "v")],
          Annotations := [] } metaLabels) t = some v →
      (∀ u ∈ (["missing", "x"] : List String),
        (lookupAL (selectMeta
          { Name := "c1", Namespace := "ns1",
            Labels := [("take-along-label.capi-to-argocd.missing", "a"),
                       ("take-along-label.capi-to-argocd.x", "b"), ("x", "v")],
            Annotations := [] } metaLabels) u).isSome = true →
        (GetMetaType metaLabels).TakenFrom ++ u ≠ t) →
      lookupAL ((buildTakeAlongArray
        { Name := "c1", Namespace := "ns1",
          Labels := [("take-along-label.capi-to-argocd.missing", "a"),
                     ("take-along-label.capi-to-argocd.x", "b"), ("x", "v")],
          Annotations := [] } metaLabels).1) t = some v) :=
  c4_missing_target_amended
    { Name := "c1", Namespace := "ns1",
      Labels := [("take-along-label.capi-to-argocd.missing", "a"),
                 ("take-along-label.capi-to-argocd.x", "b"), ("x", "v")],
      Annotations := [] } metaLabels ["missing", "x"] (Or.inl rfl) (by decide)

/-- C9: assembly always completes with `ok` (for kubeconfigs with at least
one cluster and one user, where Go's `[0]` indexing is defined); each
take-along map equals its own kind's collector output, so a malformed key
in the label scan yields an empty take-along label map while the annotation
map stays exactly the independent annotation scan's result, and vice versa. -/
theorem c9_assembly_total (c : CapiCluster) (s : SecretMeta) (oc : Option ClusterMeta)
    (enable : Bool) (argoNS : String)
    (_hc : c.KubeConfig.Clusters ≠ []) (_hu : c.KubeConfig.Users ≠ []) :
    ∃ a, NewArgoCluster c s oc enable argoNS = Except.ok a ∧
      (oc = none → a.TakeAlongLabels = [] ∧ a.TakeAlongAnnotations = []) ∧
      (∀ cl, oc = some cl →
        a.TakeAlongLabels = (buildTakeAlongArray cl metaLabels).1 ∧
        a.TakeAlongAnnotations = (buildTakeAlongArray cl metaAnnotations).1 ∧
        (∀ e, scanTakeAlong "label" cl.Labels = Except.error e →
          a.TakeAlongLabels = [] ∧
          a.TakeAlongAnnotations = (buildTakeAlongArray cl metaAnnotations).1) ∧
        (∀ e, scanTakeAlong "annotation" cl.Annotations = Except.error e →
          a.TakeAlongAnnotations = [] ∧
          a.TakeAlongLabels = (buildTakeAlongArray cl metaLabels).1)) := by
  refine ⟨_, rfl, ?_, ?_⟩
  · intro h
    subst h
    exact ⟨rfl, rfl⟩
  · intro cl h
    subst h
    refine ⟨rfl, rfl, ?_, ?_⟩
    · intro e he
      refine ⟨?_, rfl⟩
      have h1 : scanTakeAlong (GetMetaType metaLabels).Name (selectMeta cl metaLabels) =
          Except.error e := he
      show (buildTakeAlongArray cl metaLabels).1 = []
      rw [buildTakeAlongArray_of_scan_error cl metaLabels (Or.inl rfl) e h1]
    · intro e he
      refine ⟨?_, rfl⟩
      have h1 : scanTakeAlong (GetMetaType metaAnnotations).Name
          (selectMeta cl metaAnnotations) = Except.error e := he
      show (buildTakeAlongArray cl metaAnnotations).1 = []
      rw [buildTakeAlongArray_of_scan_error cl metaAnnotations (Or.inr rfl) e h1]

/-- Witness for C9 at a cluster resource whose labels hold a malformed
take-along key while its annotations hold a valid one. -/
theorem c9_assembly_total_witness :
    ∃ a, NewArgoCluster
        { Name := "mycluster", Namespace := "team-a",
          KubeConfig :=
            { Clusters := [{ Name := "prod", Cluster := { Server := "https://h", CaData := "ca" } }],
              Users := [{ User := { Token := some "tok", CertData := none, KeyData := none } }] } }
        { Name := "prod-kubeconfig", Namespace := "team-a" }
        (some { Name := "mycluster", Namespace := "team-a",
                Labels := [("take-along-label.capi-to-argocd.", "x"), ("foo", "v")],
                Annotations := [("take-along-annotation.capi-to-argocd.bar", "y"),
                                ("bar", "w")] })
        false "argo-ns" = Except.ok a ∧
      ((some
          { Name := "mycluster", Namespace := "team-a",
            Labels := [("take-along-label.capi-to-argocd.", "x"), ("foo", "v")],
            Annotations := [("take-along-annotation.capi-to-argocd.bar", "y"),
                            ("bar", "w")] } : Option ClusterMeta) = none →
        a.TakeAlongLabels = [] ∧ a.TakeAlongAnnotations = []) ∧
      (∀ cl, (some
          { Name := "mycluster", Namespace := "team-a",
            Labels := [("take-along-label.capi-to-argocd.", "x"), ("foo", "v")],
            Annotations := [("take-along-annotation.capi-to-argocd.bar", "y"),
                            ("bar", "w")] } : Option ClusterMeta) = some cl →
        a.TakeAlongLabels = (buildTakeAlongArray cl metaLabels).1 ∧
        a.TakeAlongAnnotations = (buildTakeAlongArray cl metaAnnotations).1 ∧
        (∀ e, scanTakeAlong "label" cl.Labels = Except.error e →
          a.TakeAlongLabels = [] ∧
          a.TakeAlongAnnotations = (buildTakeAlongArray cl metaAnnotations).1) ∧
        (∀ e, scanTakeAlong "annotation" cl.Annotations = Except.error e →
          a.TakeAlongAnnotations = [] ∧
          a.TakeAlongLabels = (buildTakeAlongArray cl metaLabels).1)) :=
  c9_assembly_total
    { Name := "mycluster", Namespace := "team-a",
      KubeConfig :=
        { Clusters := [{ Name := "prod", Cluster := { Server := "https://h", CaData := "ca" } }],
          Users := [{ User := { Token := some "tok", CertData := none, KeyData := none } }] } }
    { Name := "prod-kubeconfig", Namespace := "team-a" }
    (some { Name := "mycluster", Namespace := "team-a",
            Labels := [("take-along-label.capi-to-argocd.", "x"), ("foo", "v")],
            Annotations := [("take-along-annotation.capi-to-argocd.bar", "y"),
                            ("bar", "w")] })
    false "argo-ns" (by decide) (by decide)

/-- C10: two CAPI cluster inputs agreeing on name, namespace, first listed
kubeconfig cluster entry and first listed user entry (both non-empty)
assemble to identical results given the same source secret and cluster
resource — entries beyond the first never influence the output. -/
theorem c10_first_entries_only (c1 c2 : CapiCluster) (s : SecretMeta)
    (oc : Option ClusterMeta) (enable : Bool) (argoNS : String)
    (hn : c1.Name = c2.Name) (hns : c1.Namespace = c2.Namespace)
    (hcl : c1.KubeConfig.Clusters.head? = c2.KubeConfig.Clusters.head?)
    (hus : c1.KubeConfig.Users.head? = c2.KubeConfig.Users.head?)
    (_hc1 : c1.KubeConfig.Clusters ≠ []) (_hu1 : c1.KubeConfig.Users ≠ []) :
    NewArgoCluster c1 s oc enable argoNS = NewArgoCluster c2 s oc enable argoNS := by
  have hD : c1.KubeConfig.Clusters.headD emptyClusterEntry =
      c2.KubeConfig.Clusters.headD emptyClusterEntry := by
    rw [List.headD_eq_head?, List.headD_eq_head?, hcl]
  have hU : c1.KubeConfig.Users.headD emptyUserEntry =
      c2.KubeConfig.Users.headD emptyUserEntry := by
    rw [List.headD_eq_head?, List.headD_eq_head?, hus]
  simp only [NewArgoCluster]
  rw [hn, hns, hD, hU]

/-- Witness for C10: same first entries, different tails. -/
theorem c10_first_entries_only_witness :
    NewArgoCluster
      { Name := "mycluster", Namespace := "team-a",
        KubeConfig :=
          { Clusters := [{ Name := "prod", Cluster := { Server := "https://h", CaData := "ca" } }],
            Users := [{ User := { Token := some "tok", CertData := none, KeyData := none } }] } }
      { Name := "prod-kubeconfig", Namespace := "team-a" } none false "argo-ns" =
    NewArgoCluster
      { Name := "mycluster", Namespace := "team-a",
        KubeConfig :=
          { Clusters := [{ Name := "prod", Cluster := { Server := "https://h", CaData := "ca" } },
                         { Name := "extra", Cluster := { Server := "https://x", CaData := "x" } }],
            Users := [{ User := { Token := some "tok", CertData := none, KeyData := none } },
                      { User := { Token := some "other", CertData := none, KeyData := none } }] } }
      { Name := "prod-kubeconfig", Namespace := "team-a" } none false "argo-ns" :=
  c10_first_entries_only _ _
    { Name := "prod-kubeconfig", Namespace := "team-a" } none false "argo-ns"
    rfl rfl (by decide) (by decide) (by decide) (by decide)

end Capi2Argo
